import Mathlib

set_option autoImplicit false

/-!
# nctl: update, get postgres and the application wait

A shallow embedding of the Go sources

* `update/update.go` (the `updater` and its `Update` method),
* `get/postgres.go` (`postgresCmd.Run` and its two printers),
* `create/application_test.go` (the scenario of `TestApplicationWait`),

together with a model of the convergence waiter, whose source file is not
among the sources and which is therefore written down from the specification,
read so that the waiter passes `TestApplicationWait`.

Go methods that act on a remote store and on an output stream are embedded as
pure functions that return, next to the Go return value, the list of calls
they made to their collaborators, in the order in which they were made.
-/

namespace update

/-- The key of a point read, `types.NamespacedName`. -/
structure NamespacedName where
  Namespace : String
  Name : String
  deriving DecidableEq, Repr

/-- The part of `api.Client` that `updater.Update` uses. `M` is the type of
managed resources, `S` the state of the backing store and `E` the type of
non-nil Go errors. `Get` reads the store and fills the object it is handed;
`Update` submits an object and may change both the store and the object (the
store assigns a new resource version). An error of `none` is Go's `nil`. -/
structure Client (M S E : Type) where
  Namespace : String
  Get : S → NamespacedName → M → M × Option E
  Update : S → M → S × M × Option E

/-- Modelled from the spec: `api.Client.Name` is not among the sources; the
spec describes the read as a point read by name/namespace within the caller's
scope, so the key pairs the given name with the client's namespace. -/
def Client.Name {M S E : Type} (c : Client M S E) (name : String) : NamespacedName :=
  { Namespace := c.Namespace, Name := name }

/-- The Go type `updateFunc`: `func(current resource.Managed) error`. The
function works on the object in place, so the embedding returns the object as
it is after the call together with the error. -/
abbrev updateFunc (M E : Type) := M → M × Option E

/-- The Go struct `updater`. `GetName` stands for the method of the
`resource.Managed` interface. -/
structure updater (M S E : Type) where
  mg : M
  client : Client M S E
  kind : String
  updateFunc : updateFunc M E
  GetName : M → String

/-- The Go function `newUpdater`. -/
def newUpdater {M S E : Type} (client : Client M S E) (mg : M) (kind : String)
    (f : updateFunc M E) (GetName : M → String) : updater M S E :=
  { client := client, mg := mg, kind := kind, updateFunc := f, GetName := GetName }

/-- The calls `updater.Update` makes, with their arguments. -/
inductive Call (M : Type) where
  | get (key : NamespacedName) (obj : M)
  | transform (obj : M)
  | submit (obj : M)
  | printSuccessf (icon : String) (kind : String) (name : String)
  deriving DecidableEq, Repr

/-- What a call of `updater.Update` leaves behind: the returned error, the
object `u.mg`, the store, and the calls made in order. -/
structure Result (M S E : Type) where
  err : Option E
  mg : M
  store : S
  calls : List (Call M)

/-- The Go method `(*updater).Update`, statement by statement. -/
def updater.Update {M S E : Type} (u : updater M S E) (s : S) : Result M S E :=
  let key := u.client.Name (u.GetName u.mg)
  match u.client.Get s key u.mg with
  | (mg1, some e) =>
    { err := some e, mg := mg1, store := s, calls := [Call.get key u.mg] }
  | (mg1, none) =>
    match u.updateFunc mg1 with
    | (mg2, some e) =>
      { err := some e, mg := mg2, store := s,
        calls := [Call.get key u.mg, Call.transform mg1] }
    | (mg2, none) =>
      match u.client.Update s mg2 with
      | (s3, mg3, some e) =>
        { err := some e, mg := mg3, store := s3,
          calls := [Call.get key u.mg, Call.transform mg1, Call.submit mg2] }
      | (s3, mg3, none) =>
        { err := none, mg := mg3, store := s3,
          calls := [Call.get key u.mg, Call.transform mg1, Call.submit mg2,
            Call.printSuccessf "⬆️" u.kind (u.GetName mg3)] }

/-- Number of `client.Get` calls in a call list. -/
def countGet {M : Type} (cs : List (Call M)) : Nat :=
  (cs.filter (fun c => match c with | Call.get _ _ => true | _ => false)).length

/-- Number of `updateFunc` calls in a call list. -/
def countTransform {M : Type} (cs : List (Call M)) : Nat :=
  (cs.filter (fun c => match c with | Call.transform _ => true | _ => false)).length

/-- Number of `client.Update` calls in a call list. -/
def countSubmit {M : Type} (cs : List (Call M)) : Nat :=
  (cs.filter (fun c => match c with | Call.submit _ => true | _ => false)).length

/-! ### A concrete client used to instantiate the theorems -/

/-- A toy managed resource: a name, a payload and a resource version. -/
structure Item where
  name : String
  value : Nat
  version : Nat
  deriving DecidableEq, Repr

/-- A toy store client over a list of items: `Get` looks the name up, `Update`
rejects an object whose version differs from the stored one. -/
def listClient : Client Item (List Item) String :=
  { Namespace := "default"
    Get := fun s key obj =>
      match s.find? (fun i => i.name == key.Name) with
      | some i => (i, none)
      | none => (obj, some "not found")
    Update := fun s obj =>
      match s.find? (fun i => i.name == obj.name) with
      | some i =>
        if i.version = obj.version then
          let stored := { obj with version := obj.version + 1 }
          (s.map (fun j => if j.name == obj.name then stored else j), stored, none)
        else (s, obj, some "conflict")
      | none => (s, obj, some "not found") }

/-- An updater over `listClient` that adds one to the payload. -/
def bumpUpdater : updater Item (List Item) String :=
  newUpdater listClient { name := "app", value := 0, version := 0 } "application"
    (fun i => ({ i with value := i.value + 1 }, none)) (fun i => i.name)

/-- An updater whose transform hands back a stale version, so that the write is
rejected. -/
def staleUpdater : updater Item (List Item) String :=
  newUpdater listClient { name := "app", value := 0, version := 0 } "application"
    (fun i => ({ i with version := i.version + 5 }, none)) (fun i => i.name)

/-- An updater whose transform fails. -/
def failingUpdater : updater Item (List Item) String :=
  newUpdater listClient { name := "app", value := 0, version := 0 } "application"
    (fun i => ({ i with value := 99 }, some "invalid")) (fun i => i.name)

/-- A store holding the application at version 3. -/
def sampleStore : List Item := [{ name := "app", value := 7, version := 3 }]

end update

namespace get

/-- An `io.Writer` value: the process's standard output or some other writer. -/
inductive Writer where
  | stdout
  | custom (id : Nat)
  deriving DecidableEq, Repr

/-- The Go struct `postgresCmd`; `out` is `none` for a nil writer. -/
structure postgresCmd where
  Name : String
  PrintPassword : Bool
  PrintUser : Bool
  out : Option Writer
  deriving DecidableEq, Repr

/-- The values of `get.Output` that `Run` switches on, and any other value. -/
inductive output where
  | full
  | noHeader
  | yamlOut
  | other (s : String)
  deriving DecidableEq, Repr

/-- The part of the Go struct `get.Cmd` that `postgresCmd` reads. -/
structure Cmd where
  Output : output
  deriving DecidableEq, Repr

/-- The fields of `storage.Postgres` that the printers read. -/
structure Postgres where
  Namespace : String
  Name : String
  FQDN : String
  Location : String
  MachineType : String
  deriving DecidableEq, Repr

/-- The part of `api.Client` that `postgresCmd` reads. -/
structure ApiClient where
  Project : String
  deriving DecidableEq, Repr

/-- The collaborators of `postgresCmd` that live outside `get/postgres.go`:
the constants of the storage API, `defaultOut`, the result of
`get.list(ctx, client, postgresList, matchName(name))` as the items left in the
list and the error, the result of `getConnectionSecret`, of the tab writer's
`Flush` and of `format.PrettyPrintObjects`. -/
structure Env (E : Type) where
  PostgresUser : String
  PostgresKind : String
  defaultOut : Option Writer → Writer
  list : Cmd → ApiClient → String → List Postgres × Option E
  getConnectionSecret : ApiClient → String → Postgres → String × Option E
  flush : Writer → Option E
  prettyPrintObjects : List Postgres → Option E

/-- The calls `postgresCmd` makes, with their arguments. `fprintln w s` is
`fmt.Fprintln(w, s)`, which writes `s` followed by a newline. -/
inductive Event where
  | fprintln (w : Writer) (s : String)
  | list (name : String)
  | printEmptyMessage (w : Writer) (kind : String) (project : String)
  | getConnectionSecret (user : String) (postgres : Postgres)
  | writeHeader (w : Writer) (columns : List String)
  | writeTabRow (w : Writer) (ns : String) (cells : List String)
  | flush (w : Writer)
  | prettyPrintObjects (items : List Postgres)
  deriving DecidableEq, Repr

/-- The text an event writes with `fmt.Fprintln`, if it is such a write. -/
def Event.written : Event → Option String
  | Event.fprintln _ s => some (s ++ "\n")
  | _ => none

/-- How a Go call ends: it returns an error value (`none` is nil) or the
runtime panics on an index out of range. -/
inductive Ret (E : Type) where
  | returned (err : Option E)
  | indexOutOfRange
  deriving DecidableEq, Repr

/-- The Go method `(*postgresCmd).printPostgresInstances`. -/
def postgresCmd.printPostgresInstances {E : Type} (env : Env E) (out : Writer)
    (list : List Postgres) (header : Bool) : Ret E × List Event :=
  let head := if header then
      [Event.writeHeader out ["NAME", "FQDN", "LOCATION", "MACHINE TYPE"]] else []
  let rows := list.map (fun postgres =>
      Event.writeTabRow out postgres.Namespace
        [postgres.Name, postgres.FQDN, postgres.Location, postgres.MachineType])
  (Ret.returned (env.flush out), head ++ rows ++ [Event.flush out])

/-- The Go method `(*postgresCmd).printPassword`. -/
def postgresCmd.printPassword {E : Type} (env : Env E) (out : Writer)
    (client : ApiClient) (postgres : Postgres) : Ret E × List Event :=
  match env.getConnectionSecret client env.PostgresUser postgres with
  | (_, some err) =>
    (Ret.returned (some err), [Event.getConnectionSecret env.PostgresUser postgres])
  | (pw, none) =>
    (Ret.returned none,
      [Event.getConnectionSecret env.PostgresUser postgres, Event.fprintln out pw])

/-- The Go method `(*postgresCmd).Run`, statement by statement. The index
expression `postgresList.Items[0]` panics when the slice is empty. -/
def postgresCmd.Run {E : Type} (env : Env E) (cmd : postgresCmd)
    (client : ApiClient) (get : Cmd) : Ret E × List Event :=
  let out := env.defaultOut cmd.out
  if cmd.Name ≠ "" ∧ cmd.PrintUser = true then
    (Ret.returned none, [Event.fprintln out env.PostgresUser])
  else
    match env.list get client cmd.Name with
    | (_, some err) => (Ret.returned (some err), [Event.list cmd.Name])
    | (items, none) =>
      if items.length = 0 then
        (Ret.returned none,
          [Event.list cmd.Name, Event.printEmptyMessage out env.PostgresKind client.Project])
      else if cmd.Name ≠ "" ∧ cmd.PrintPassword = true then
        match items[0]? with
        | none => (Ret.indexOutOfRange, [Event.list cmd.Name])
        | some first =>
          let r := postgresCmd.printPassword env out client first
          (r.1, Event.list cmd.Name :: r.2)
      else
        match get.Output with
        | output.full =>
          let r := postgresCmd.printPostgresInstances env out items true
          (r.1, Event.list cmd.Name :: r.2)
        | output.noHeader =>
          let r := postgresCmd.printPostgresInstances env out items false
          (r.1, Event.list cmd.Name :: r.2)
        | output.yamlOut =>
          (Ret.returned (env.prettyPrintObjects items),
            [Event.list cmd.Name, Event.prettyPrintObjects items])
        | output.other _ => (Ret.returned none, [Event.list cmd.Name])

/-- Whether a run queried the store, that is, called `get.list`. -/
def queried (evs : List Event) : Bool :=
  evs.any (fun e => match e with | Event.list _ => true | _ => false)

/-- The instances handed to `getConnectionSecret` (by `printPassword`) in a run. -/
def passwordTargets (evs : List Event) : List Postgres :=
  evs.filterMap (fun e => match e with
    | Event.getConnectionSecret _ p => some p
    | _ => none)

/-- Everything a run wrote with `fmt.Fprintln`, concatenated. -/
def fprintlnText (evs : List Event) : String :=
  String.join (evs.filterMap Event.written)

/-! ### A concrete environment used to instantiate the theorems -/

/-- Two instances of a toy project. -/
def sampleItems : List Postgres :=
  [ { Namespace := "acme", Name := "db1", FQDN := "db1.example.org",
      Location := "nine-es34", MachineType := "nine-db-s" },
    { Namespace := "acme", Name := "db2", FQDN := "db2.example.org",
      Location := "nine-cz42", MachineType := "nine-db-m" } ]

/-- A toy environment: `list` filters `sampleItems` by name (all of them for
the empty name), secrets are fixed, nothing fails. -/
def sampleEnv : Env String :=
  { PostgresUser := "dbadmin"
    PostgresKind := "Postgres"
    defaultOut := fun w => w.getD Writer.stdout
    list := fun _ _ name =>
      (sampleItems.filter (fun p => name == "" || p.Name == name), none)
    getConnectionSecret := fun _ _ p => ("secret-of-" ++ p.Name, none)
    flush := fun _ => none
    prettyPrintObjects := fun _ => none }

end get

namespace create

/-! ### The convergence waiter

The file that implements the waiter (`create/application.go`) is not among the
sources; only its test is. The waiter is therefore written down from the
specification, sections 4.3 and 4.4, and from what the test demands of it. -/

/-- Modelled from the spec: the three classes of section 4.3,
`classify(dependent) -> {Pending, Succeeded, Failed}`. -/
inductive Class where
  | Pending
  | Succeeded
  | Failed
  deriving DecidableEq, Repr

/-- Modelled from the spec: the dependent kinds of interest, builds and releases. -/
inductive DependentKind where
  | build
  | release
  deriving DecidableEq, Repr

/-- Modelled from the spec: the value of the constant the test calls
`buildStatusRunning`; the spec's build enum is running / success / failed. -/
def buildStatusRunning : String := "running"

/-- Modelled from the spec: the value of the constant the test calls
`buildStatusSuccess`. -/
def buildStatusSuccess : String := "success"

/-- Modelled from the spec: the failed value of the build enum. -/
def buildStatusFailed : String := "failed"

/-- Modelled from the spec: the pending value of the release enum
(pending / available / failed). -/
def releaseStatusPending : String := "pending"

/-- Modelled from the spec: the value of the constant the test calls
`releaseStatusAvailable`. -/
def releaseStatusAvailable : String := "available"

/-- Modelled from the spec: the failed value of the release enum. -/
def releaseStatusFailed : String := "failed"

/-- Modelled from the spec: the per-kind status extractor of section 4.3, which
is not among the sources. Build: running to Pending, success to Succeeded,
failed to Failed; release: pending to Pending, available to Succeeded, failed
to Failed; unknown and unset values classify as Pending. -/
def classify : DependentKind → String → Class
  | DependentKind.build, status =>
    if status = buildStatusRunning then Class.Pending
    else if status = buildStatusSuccess then Class.Succeeded
    else if status = buildStatusFailed then Class.Failed
    else Class.Pending
  | DependentKind.release, status =>
    if status = releaseStatusPending then Class.Pending
    else if status = releaseStatusAvailable then Class.Succeeded
    else if status = releaseStatusFailed then Class.Failed
    else Class.Pending

/-- Modelled from the spec: a dependent as the lister of section 4.2 returns
it, reduced to its identity and its kind-specific status value. -/
structure Dependent where
  name : String
  status : String
  deriving DecidableEq, Repr

/-- Modelled from the spec: the read failures of section 7, NotFound (fatal)
and any other read failure (ignored for the current tick). -/
inductive ReadError where
  | notFound
  | transient
  deriving DecidableEq, Repr

/-- Modelled from the spec: what the backing store answers to the three reads
of one poll tick. `parent` is the re-fetch of the parent with whether its
condition set signals success; `builds` and `releases` are the two
label-scoped list calls. -/
structure Observation where
  parent : Except ReadError Bool
  builds : Except ReadError (List Dependent)
  releases : Except ReadError (List Dependent)

/-- Modelled from the spec: the states of the waiter of section 4.4, Polling
and the terminal Succeeded, Failed (with the kind and name of the failed
dependent), TimedOut (with the parent and the elapsed ticks), and the fatal
NotFound of section 7. -/
inductive Outcome where
  | Polling
  | Succeeded
  | Failed (kind : DependentKind) (name : String)
  | TimedOut (parent : String) (elapsed : Nat)
  | NotFound
  deriving DecidableEq, Repr

/-- The dependents a list call returned: none when the read failed. -/
def returned : Except ReadError (List Dependent) → List Dependent
  | Except.ok ds => ds
  | Except.error _ => []

/-- Whether a list call failed with NotFound. -/
def vanished : Except ReadError (List Dependent) → Bool
  | Except.error ReadError.notFound => true
  | _ => false

/-- The first dependent of a list that classifies Failed. -/
def firstFailed (kind : DependentKind) (ds : List Dependent) : Option Dependent :=
  ds.find? (fun d => classify kind d.status = Class.Failed)

/-- Modelled from the spec: step 4 of section 4.4, whose source is not among
the sources, as far as the repository's test allows it. The dependents of one
kind have converged when at least one classifies Succeeded and every one whose
status is set classifies Succeeded. The spec asks for every dependent to
classify Succeeded; `TestApplicationWait` in `create/application_test.go`
gives build any-name-1 and release another-name-1 the parent's label, never
sets their status, and fails unless `Run` returns nil. A dependent whose
status is unset is therefore not waited for. -/
def kindConverged (kind : DependentKind) (ds : List Dependent) : Bool :=
  ds.any (fun d => classify kind d.status = Class.Succeeded) &&
  ds.all (fun d => d.status = "" || classify kind d.status = Class.Succeeded)

/-- Modelled from the spec: the per-tick algorithm of section 4.4, steps 1 to
5, whose source is not among the sources, with the convergence of a kind read
as in `kindConverged`. Step 1: the parent is re-fetched; a NotFound parent is
fatal, and unless the parent signals success the tick stays Polling. Steps 2
and 3: the builds and the releases are listed and every returned dependent is
classified; the first one that classifies Failed, builds before releases, ends
the wait in Failed with its kind and name, whatever the other read returned,
so that a known failure is never dropped. Otherwise a NotFound list read is
fatal, any other read failure is ignored for this tick, and (steps 4 and 5)
the wait ends in Succeeded when both kinds have converged and stays Polling
when not. -/
def tick (o : Observation) : Outcome :=
  match o.parent with
  | Except.error ReadError.notFound => Outcome.NotFound
  | Except.error ReadError.transient => Outcome.Polling
  | Except.ok false => Outcome.Polling
  | Except.ok true =>
    match firstFailed DependentKind.build (returned o.builds) with
    | some d => Outcome.Failed DependentKind.build d.name
    | none =>
      match firstFailed DependentKind.release (returned o.releases) with
      | some d => Outcome.Failed DependentKind.release d.name
      | none =>
        if vanished o.builds = true ∨ vanished o.releases = true then Outcome.NotFound
        else if kindConverged DependentKind.build (returned o.builds) = true ∧
            kindConverged DependentKind.release (returned o.releases) = true then
          Outcome.Succeeded
        else Outcome.Polling

/-- The dependents of a kind that a tick lists: those the list call of the kind
returned, in a tick in which the parent signals success; no dependent is
listed in a tick that ends at step 1. -/
def Observation.listed (o : Observation) (kind : DependentKind) : List Dependent :=
  match o.parent with
  | Except.ok true =>
    match kind with
    | DependentKind.build => returned o.builds
    | DependentKind.release => returned o.releases
  | _ => []

/-- Modelled from the spec: the poll loop of section 4.4 from tick `t` on with
`remaining` ticks left before the deadline. The deadline is checked at the top
of every tick (step 6: TimedOut with the parent and the elapsed ticks); a tick
that stays Polling is followed by the next one, any other outcome is returned. -/
def waitFrom (parent : String) (obs : Nat → Observation) : Nat → Nat → Outcome
  | t, 0 => Outcome.TimedOut parent t
  | t, remaining + 1 =>
    match tick (obs t) with
    | Outcome.Polling => waitFrom parent obs (t + 1) remaining
    | r => r

/-- Modelled from the spec: a wait session of section 3, with the deadline
counted in poll ticks (the configured timeout divided by the polling
interval). `obs t` is what the store answers at tick `t`. -/
def wait (parent : String) (obs : Nat → Observation) (deadline : Nat) : Outcome :=
  waitFrom parent obs 0 deadline

/-- A tick's reads contain no NotFound and no dependent that classifies Failed. -/
def Observation.quiet (o : Observation) : Bool :=
  (match o.parent with
    | Except.error ReadError.notFound => false
    | _ => true) &&
  (match o.builds with
    | Except.error ReadError.notFound => false
    | Except.error ReadError.transient => true
    | Except.ok bs => bs.all (fun d => classify DependentKind.build d.status ≠ Class.Failed)) &&
  (match o.releases with
    | Except.error ReadError.notFound => false
    | Except.error ReadError.transient => true
    | Except.ok rs => rs.all (fun d => classify DependentKind.release d.status ≠ Class.Failed))

/-- A tick's reads all succeed, the parent signals success, at least one build
has status success and at least one release has status available, and every
other build and release has the success status of its kind or no status. -/
def Observation.converged (o : Observation) : Bool :=
  match o.parent, o.builds, o.releases with
  | Except.ok true, Except.ok bs, Except.ok rs =>
    bs.any (fun d => d.status = buildStatusSuccess) &&
    bs.all (fun d => d.status = "" || d.status = buildStatusSuccess) &&
    rs.any (fun d => d.status = releaseStatusAvailable) &&
    rs.all (fun d => d.status = "" || d.status = releaseStatusAvailable)
  | _, _, _ => false

/-- How `Run` ends when it returns an error: the wait timed out, a dependent
failed, a resource vanished, or anything else. -/
inductive RunError where
  | timeout
  | dependentFailed (kind : DependentKind) (name : String)
  | notFound
  | other (message : String)
  deriving DecidableEq, Repr

/-- Modelled from the spec: how the waiter's terminal state surfaces as the
command's outcome (section 4.5 and the taxonomy of section 7). -/
def outcomeError : Outcome → Option RunError
  | Outcome.Succeeded => none
  | Outcome.TimedOut _ _ => some RunError.timeout
  | Outcome.Failed kind name => some (RunError.dependentFailed kind name)
  | Outcome.NotFound => some RunError.notFound
  | Outcome.Polling => some (RunError.other "polling")

/-- A tick in which one build has failed while the other build is running and
the list of releases could not be read. -/
def failedObs : Observation :=
  { parent := Except.ok true
    builds := Except.ok [⟨"any-name", "running"⟩, ⟨"any-name-1", "failed"⟩]
    releases := Except.error ReadError.transient }

/-- A trace that polls twice without news and then shows `failedObs`. -/
def failingTrace (t : Nat) : Observation :=
  if t < 2 then { parent := Except.ok false, builds := Except.ok [], releases := Except.ok [] }
  else failedObs

/-! ### The scenario of `TestApplicationWait`

The test in `create/application_test.go` starts a goroutine that plays the
remote controller against a fake client and then calls `cmd.Run`. The objects,
the fake client's point read and status write, `setResourceCondition` and the
body of the goroutine are embedded below. -/

/-- The three resource kinds the test touches. -/
inductive Kind where
  | Application
  | Build
  | Release
  deriving DecidableEq, Repr

/-- The Go struct `runtimev1.Condition`, fields Type, Status and Reason. -/
structure Condition where
  typ : String
  Status : String
  Reason : String
  deriving DecidableEq, Repr

/-- The condition `runtimev1.ReconcileSuccess()`. -/
def ReconcileSuccess : Condition := { typ := "Synced", Status := "True", Reason := "ReconcileSuccess" }

/-- The condition `runtimev1.Available()`. -/
def Available : Condition := { typ := "Ready", Status := "True", Reason := "Available" }

/-- An object of the apps API as far as the test reads and writes it: its
metadata (with the resource version as a number, 0 for an unset one), its
condition list and the `Status.AtProvider` fields. An unset status is the
empty string. -/
structure Object where
  kind : Kind
  Name : String
  Namespace : String
  Labels : List (String × String)
  ResourceVersion : Nat
  Conditions : List Condition
  BuildStatus : String
  ReleaseStatus : String
  Hosts : List String
  CNAMETarget : String
  deriving DecidableEq, Repr

/-- The key of the label that ties a build or release to its application. The
test only refers to the constant by name; its value is not among the sources
and is only ever compared with itself. -/
def applicationNameLabel : String := "applicationNameLabel"

/-- The contents of the fake client. -/
abbrev Store := List Object

/-- The key of a point read, `types.NamespacedName`. -/
structure NamespacedName where
  Namespace : String
  Name : String
  deriving DecidableEq, Repr

/-- The errors of the fake client: nothing is stored under the key, or the
object handed in does not carry the stored resource version. -/
inductive ClientError where
  | notFound (kind : Kind) (key : NamespacedName)
  | conflict (kind : Kind) (key : NamespacedName)
  deriving DecidableEq, Repr

/-- The helper `api.ObjectName`: the key of an object. -/
def ObjectName (obj : Object) : NamespacedName :=
  { Namespace := obj.Namespace, Name := obj.Name }

/-- Whether a stored object is the one a key of a given kind refers to. -/
def Object.hasKey (o : Object) (kind : Kind) (key : NamespacedName) : Bool :=
  o.kind = kind && o.Namespace = key.Namespace && o.Name = key.Name

/-- The point read `apiClient.Get(ctx, key, obj)`: the stored object of the
kind of `obj` under `key` is copied into `obj`, or the read fails. -/
def Get (s : Store) (key : NamespacedName) (obj : Object) : Object × Option ClientError :=
  match s.find? (fun o => o.hasKey obj.kind key) with
  | some o => (o, none)
  | none => (obj, some (ClientError.notFound obj.kind key))

/-- The status write `apiClient.Status().Update(ctx, obj)` of the fake client
the test is built on: the write fails when nothing is stored under the key of
`obj`, and is rejected as stale when `obj` does not carry the stored resource
version; otherwise the whole of `obj`, metadata included, replaces the stored
object under the next resource version, which `obj` receives as well. The
result is the store, `obj` after the call and the error. -/
def StatusUpdate (s : Store) (obj : Object) : Store × Object × Option ClientError :=
  match s.find? (fun o => o.hasKey obj.kind (ObjectName obj)) with
  | none => (s, obj, some (ClientError.notFound obj.kind (ObjectName obj)))
  | some old =>
    if obj.ResourceVersion = old.ResourceVersion then
      let written := { obj with ResourceVersion := old.ResourceVersion + 1 }
      (s.map (fun o => if o.hasKey obj.kind (ObjectName obj) then written else o),
        written, none)
    else (s, obj, some (ClientError.conflict obj.kind (ObjectName obj)))

/-- The method `SetConditions` of a managed resource for one condition: a
condition of the same type is replaced, otherwise the condition is appended. -/
def SetConditions (obj : Object) (c : Condition) : Object :=
  if obj.Conditions.any (fun x => x.typ = c.typ) then
    { obj with Conditions := obj.Conditions.map (fun x => if x.typ = c.typ then c else x) }
  else { obj with Conditions := obj.Conditions ++ [c] }

/-- The Go function `setResourceCondition` of the test file. -/
def setResourceCondition (s : Store) (mg : Object) (condition : Condition) :
    Store × Object × Option ClientError :=
  match Get s (ObjectName mg) mg with
  | (mg1, some err) => (s, mg1, some err)
  | (mg1, none) => StatusUpdate s (SetConditions mg1 condition)

/-- The fields of `applicationCmd` that `TestApplicationWait` sets; the
timeout is in milliseconds. -/
structure applicationCmd where
  Wait : Bool
  WaitTimeout : Nat
  Name : String
  deriving DecidableEq, Repr

/-- The command of `TestApplicationWait`. -/
def testCmd : applicationCmd := { Wait := true, WaitTimeout := 5000, Name := "some-name" }

/-- The namespace of `TestApplicationWait`. -/
def testNamespace : String := "default"

/-- An object with nothing set. -/
def emptyObject (kind : Kind) : Object :=
  { kind := kind, Name := "", Namespace := "", Labels := [], ResourceVersion := 0,
    Conditions := [], BuildStatus := "", ReleaseStatus := "", Hosts := [], CNAMETarget := "" }

/-- The variable `build` of the test, with the resource version 999 that the
fake client gives an object it is built with. -/
def testBuild : Object :=
  { emptyObject Kind.Build with
    Name := "any-name", Namespace := testNamespace,
    Labels := [(applicationNameLabel, testCmd.Name)], ResourceVersion := 999 }

/-- The variable `release` of the test, with the resource version 999 that the
fake client gives an object it is built with. -/
def testRelease : Object :=
  { emptyObject Kind.Release with
    Name := "another-name", Namespace := testNamespace,
    Labels := [(applicationNameLabel, testCmd.Name)], ResourceVersion := 999 }

/-- The variable `build2` of the test: a copy of `build` named with a suffix. -/
def testBuild2 : Object := { testBuild with Name := testBuild.Name ++ "-1" }

/-- The variable `release2` of the test: a copy of `release` named with a suffix. -/
def testRelease2 : Object := { testRelease with Name := testRelease.Name ++ "-1" }

/-- Modelled from the spec: the parent object that `Run` submits before it
waits (section 4.5, Create). `newApplication` is not among the sources; the
goroutine of the test reads the parent under the command's name in the
client's namespace, so the object carries this identity, with the resource
version 1 of a newly created object. -/
def createdApplication (cmd : applicationCmd) (ns : String) : Object :=
  { emptyObject Kind.Application with Name := cmd.Name, Namespace := ns, ResourceVersion := 1 }

/-- The state of the test's goroutine: the fake client's store, the Go
variables `app`, `build`, `build2`, `release`, `release2` that the goroutine
reads into and writes from, and the errors it has sent to the `errors`
channel. -/
structure ActorState where
  store : Store
  app : Object
  build : Object
  build2 : Object
  release : Object
  release2 : Object
  errors : List ClientError
  deriving DecidableEq, Repr

/-- The state when the goroutine's ticker first fires: the fake client holds
the four objects it was built with and the parent created by `Run`. -/
def actorInit : ActorState :=
  { store := [testBuild, testBuild2, testRelease, testRelease2,
      createdApplication testCmd testNamespace]
    app := emptyObject Kind.Application
    build := testBuild
    build2 := testBuild2
    release := testRelease
    release2 := testRelease2
    errors := [] }

/-- The ten client calls of one firing of the ticker (lines 176 to 220 of the
test), numbered in source order. An error is sent to the channel and the
goroutine carries on. -/
def actorOp : Nat → ActorState → ActorState
  | 0, a =>
    let r := Get a.store { Namespace := testNamespace, Name := testCmd.Name }
      (emptyObject Kind.Application)
    { a with app := r.1, errors := a.errors ++ r.2.toList }
  | 1, a =>
    let r := setResourceCondition a.store a.app ReconcileSuccess
    { a with store := r.1, app := r.2.1, errors := a.errors ++ r.2.2.toList }
  | 2, a =>
    let r := StatusUpdate a.store
      { a.app with Hosts := ["host.example.org"], CNAMETarget := "some.target.example.org" }
    { a with store := r.1, app := r.2.1, errors := a.errors ++ r.2.2.toList }
  | 3, a =>
    let r := setResourceCondition a.store a.build Available
    { a with store := r.1, build := r.2.1, errors := a.errors ++ r.2.2.toList }
  | 4, a =>
    let r := setResourceCondition a.store a.build2 Available
    { a with store := r.1, build2 := r.2.1, errors := a.errors ++ r.2.2.toList }
  | 5, a =>
    let r := Get a.store (ObjectName a.build) a.build
    { a with build := r.1, errors := a.errors ++ r.2.toList }
  | 6, a =>
    let r := StatusUpdate a.store { a.build with BuildStatus := buildStatusRunning }
    { a with store := r.1, build := r.2.1, errors := a.errors ++ r.2.2.toList }
  | 7, a =>
    let r := StatusUpdate a.store { a.build with BuildStatus := buildStatusSuccess }
    { a with store := r.1, build := r.2.1, errors := a.errors ++ r.2.2.toList }
  | 8, a =>
    let r := setResourceCondition a.store a.release2 Available
    { a with store := r.1, release2 := r.2.1, errors := a.errors ++ r.2.2.toList }
  | 9, a =>
    let r := StatusUpdate a.store { a.release with ReleaseStatus := releaseStatusAvailable }
    { a with store := r.1, release := r.2.1, errors := a.errors ++ r.2.2.toList }
  | _, a => a

/-- The goroutine's state after its first `k` client calls: the ticker fires
again and again and each firing makes the ten calls in order. -/
def actorAfter : Nat → ActorState
  | 0 => actorInit
  | k + 1 => actorOp (k % 10) (actorAfter k)

/-- The fake client's store after the goroutine's first `k` client calls: what
`Run` can read while it waits. -/
def testView (k : Nat) : Store := (actorAfter k).store

/-- The status value of a dependent of a given kind. -/
def Object.status (o : Object) : String :=
  match o.kind with
  | Kind.Build => o.BuildStatus
  | Kind.Release => o.ReleaseStatus
  | Kind.Application => ""

/-- The terminal success status of a dependent kind: `buildStatusSuccess` for
builds, `releaseStatusAvailable` for releases. -/
def successStatus : DependentKind → String
  | DependentKind.build => buildStatusSuccess
  | DependentKind.release => releaseStatusAvailable

/-- The resource kind of a dependent kind. -/
def DependentKind.toKind : DependentKind → Kind
  | DependentKind.build => Kind.Build
  | DependentKind.release => Kind.Release

/-- Modelled from the spec: the label-scoped lister of section 4.2, which is
not among the sources: all objects of a kind whose correlation label equals
the parent's name, within the caller's namespace. -/
def dependents (s : Store) (kind : Kind) (ns parent : String) : List Object :=
  s.filter (fun o => o.kind = kind && o.Namespace = ns &&
    o.Labels.contains (applicationNameLabel, parent))

/-- Modelled from the spec: `listDependents(parentName)` of section 4.2 as the
waiter uses it, each dependent reduced to its name and status value. -/
def listDependents (s : Store) (kind : DependentKind) (ns parent : String) : List Dependent :=
  (dependents s kind.toKind ns parent).map (fun o => { name := o.Name, status := o.status })

/-- Modelled from the spec: the condition model of section 4.1,
`hasCondition(resource, type, status)`; the reason is ignored. -/
def hasCondition (o : Object) (typ status : String) : Bool :=
  o.Conditions.any (fun c => c.typ = typ && c.Status = status)

/-- Modelled from the spec: the reads of one poll tick (section 4.4, steps 1
and 2) against a store: the parent is re-fetched under its name and is
NotFound when it is not stored; `ready` says whether its condition set signals
success; builds and releases are listed by label. -/
def observe (ready : Object → Bool) (s : Store) (ns parent : String) : Observation :=
  { parent :=
      match s.find? (fun o => o.hasKey Kind.Application { Namespace := ns, Name := parent }) with
      | none => Except.error ReadError.notFound
      | some app => Except.ok (ready app)
    builds := Except.ok (listDependents s DependentKind.build ns parent)
    releases := Except.ok (listDependents s DependentKind.release ns parent) }

/-- Modelled from the spec: `applicationCmd.Run` after the parent has been
submitted (section 4.5); its source is not among the sources. Without a wait
request it returns nil; with one it hands the parent to the waiter and
surfaces the waiter's result. `ready` is the parent's success signal,
`interval` the polling interval in milliseconds, and poll tick `t` reads the
store `view (sched t)`. -/
def applicationCmd.Run (cmd : applicationCmd) (ready : Object → Bool) (interval : Nat)
    (sched : Nat → Nat) (ns : String) (view : Nat → Store) : Option RunError :=
  if cmd.Wait = true then
    outcomeError (wait cmd.Name (fun t => observe ready (view (sched t)) ns cmd.Name)
      (cmd.WaitTimeout / interval))
  else none

/-- The parent's success signal in `TestApplicationWait`: the ReconcileSuccess
condition, that is, type Synced with status True, which is the one condition
the goroutine gives the parent. -/
def reconciled (o : Object) : Bool := hasCondition o "Synced" "True"

/-- The moments at which `Run` polls in the examples: every 100 ms like the
test's ticker, so that poll tick `t` reads the store after `t` complete
firings, that is, after `10 * t` client calls of the goroutine. -/
def afterFirings (t : Nat) : Nat := 10 * t

/-- The Go test `TestApplicationWait` for the modelled `Run`, polling every
`interval` milliseconds at the moments `sched`: it passes when `Run` returns no
error (line 225) and the goroutine has sent no error by the time it is
stopped, after `calls` client calls (line 232). -/
def TestApplicationWait (interval : Nat) (sched : Nat → Nat) (calls : Nat) : Bool :=
  (testCmd.Run reconciled interval sched testNamespace testView).isNone &&
  (actorAfter calls).errors.isEmpty

/-- What is known of every object the goroutine holds or stores: one named
any-name-1 has no build status and one named another-name-1 has no release
status. -/
def Object.secondUnset (o : Object) : Prop :=
  (o.Name = "any-name-1" → o.BuildStatus = "") ∧
  (o.Name = "another-name-1" → o.ReleaseStatus = "")

/-- The invariant of the goroutine: the variable `build` is named any-name and
`release` another-name, and every stored object and every variable satisfies
`Object.secondUnset`. -/
def ActorState.inv (a : ActorState) : Prop :=
  (∀ o ∈ a.store, o.secondUnset) ∧
  a.app.secondUnset ∧ a.build2.secondUnset ∧ a.release2.secondUnset ∧
  a.build.secondUnset ∧ a.release.secondUnset ∧
  a.build.Name = "any-name" ∧ a.release.Name = "another-name"

end create


namespace update

/-- C4. On the success path (Get, updateFunc and client.Update all return nil)
Update returns nil; Get is called with the key made of the managed resource's
name and the client's namespace; the object handed to client.Update is the
object fetched by Get after updateFunc has been applied to it; and the calls
are fetch, transform, submit in this order, each exactly once. -/
theorem Update_success_path {M S E : Type} (u : updater M S E) (s : S)
    (fetched transformed written : M) (s2 : S)
    (hget : u.client.Get s ⟨u.client.Namespace, u.GetName u.mg⟩ u.mg = (fetched, none))
    (hf : u.updateFunc fetched = (transformed, none))
    (hupd : u.client.Update s transformed = (s2, written, none)) :
    (u.Update s).err = none ∧
    (u.Update s).calls =
      [Call.get ⟨u.client.Namespace, u.GetName u.mg⟩ u.mg,
       Call.transform fetched,
       Call.submit transformed,
       Call.printSuccessf "⬆️" u.kind (u.GetName written)] ∧
    countGet (u.Update s).calls = 1 ∧
    countTransform (u.Update s).calls = 1 ∧
    countSubmit (u.Update s).calls = 1 ∧
    (u.Update s).store = s2 := by
  have hkey : u.client.Name (u.GetName u.mg) = ⟨u.client.Namespace, u.GetName u.mg⟩ := rfl
  simp [updater.Update, hkey, hget, hf, hupd, countGet, countTransform, countSubmit]

/-- The success path of C4 on the toy client: the payload 7 is fetched, bumped
to 8 and written. -/
theorem Update_success_path_witness :
    (bumpUpdater.Update sampleStore).err = none ∧
    (bumpUpdater.Update sampleStore).calls =
      [Call.get ⟨"default", "app"⟩ ⟨"app", 0, 0⟩,
       Call.transform ⟨"app", 7, 3⟩,
       Call.submit ⟨"app", 8, 3⟩,
       Call.printSuccessf "⬆️" "application" "app"] ∧
    countGet (bumpUpdater.Update sampleStore).calls = 1 ∧
    countTransform (bumpUpdater.Update sampleStore).calls = 1 ∧
    countSubmit (bumpUpdater.Update sampleStore).calls = 1 ∧
    (bumpUpdater.Update sampleStore).store = [⟨"app", 8, 4⟩] :=
  Update_success_path bumpUpdater sampleStore ⟨"app", 7, 3⟩ ⟨"app", 8, 3⟩ ⟨"app", 8, 4⟩
    [⟨"app", 8, 4⟩] (by decide) (by decide) (by decide)

/-- C5. No retry on conflict: when client.Update rejects the write, Update
returns that same error, and in the call Get has been called exactly once and
client.Update exactly once (fetch, transform, submit and nothing after). -/
theorem Update_conflict_no_retry {M S E : Type} (u : updater M S E) (s : S)
    (fetched transformed written : M) (s2 : S) (e : E)
    (hget : u.client.Get s ⟨u.client.Namespace, u.GetName u.mg⟩ u.mg = (fetched, none))
    (hf : u.updateFunc fetched = (transformed, none))
    (hupd : u.client.Update s transformed = (s2, written, some e)) :
    (u.Update s).err = some e ∧
    (u.Update s).calls =
      [Call.get ⟨u.client.Namespace, u.GetName u.mg⟩ u.mg,
       Call.transform fetched,
       Call.submit transformed] ∧
    countGet (u.Update s).calls = 1 ∧
    countSubmit (u.Update s).calls = 1 := by
  have hkey : u.client.Name (u.GetName u.mg) = ⟨u.client.Namespace, u.GetName u.mg⟩ := rfl
  simp [updater.Update, hkey, hget, hf, hupd, countGet, countSubmit]

/-- The conflict of C5 on the toy client: the stale version 8 is rejected once. -/
theorem Update_conflict_no_retry_witness :
    (staleUpdater.Update sampleStore).err = some "conflict" ∧
    (staleUpdater.Update sampleStore).calls =
      [Call.get ⟨"default", "app"⟩ ⟨"app", 0, 0⟩,
       Call.transform ⟨"app", 7, 3⟩,
       Call.submit ⟨"app", 7, 8⟩] ∧
    countGet (staleUpdater.Update sampleStore).calls = 1 ∧
    countSubmit (staleUpdater.Update sampleStore).calls = 1 :=
  Update_conflict_no_retry staleUpdater sampleStore ⟨"app", 7, 3⟩ ⟨"app", 7, 8⟩ ⟨"app", 7, 8⟩
    sampleStore "conflict" (by decide) (by decide) (by decide)

/-- C9. No write after an earlier failure: if Get returns an error, or Get
succeeds and updateFunc returns an error, then Update returns that error,
client.Update is not called and the store is the one Update started from; and
when it is Get that failed, updateFunc is not called either. -/
theorem Update_no_write_after_failure {M S E : Type} (u : updater M S E) (s : S) (e : E)
    (h : (∃ m, u.client.Get s ⟨u.client.Namespace, u.GetName u.mg⟩ u.mg = (m, some e)) ∨
         (∃ fetched m,
            u.client.Get s ⟨u.client.Namespace, u.GetName u.mg⟩ u.mg = (fetched, none) ∧
            u.updateFunc fetched = (m, some e))) :
    (u.Update s).err = some e ∧
    countSubmit (u.Update s).calls = 0 ∧
    (u.Update s).store = s ∧
    ((u.client.Get s ⟨u.client.Namespace, u.GetName u.mg⟩ u.mg).2 ≠ none →
      countTransform (u.Update s).calls = 0) := by
  have hkey : u.client.Name (u.GetName u.mg) = ⟨u.client.Namespace, u.GetName u.mg⟩ := rfl
  rcases h with ⟨m, hget⟩ | ⟨fetched, m, hget, hf⟩
  · simp [updater.Update, hkey, hget, countSubmit, countTransform]
  · simp [updater.Update, hkey, hget, hf, countSubmit]

/-- The failing transform of C9 on the toy client: the error comes back and the
store still holds payload 7 at version 3. -/
theorem Update_no_write_after_failure_witness :
    (failingUpdater.Update sampleStore).err = some "invalid" ∧
    countSubmit (failingUpdater.Update sampleStore).calls = 0 ∧
    (failingUpdater.Update sampleStore).store = sampleStore ∧
    ((failingUpdater.client.Get sampleStore ⟨"default", "app"⟩ ⟨"app", 0, 0⟩).2 ≠ none →
      countTransform (failingUpdater.Update sampleStore).calls = 0) :=
  Update_no_write_after_failure failingUpdater sampleStore "invalid"
    (Or.inr ⟨⟨"app", 7, 3⟩, ⟨"app", 99, 3⟩, by decide, by decide⟩)

end update

namespace get

/-- C8. Run returns before querying the store if and only if Name is non-empty
and PrintUser is true; in that case it writes exactly the PostgreSQL user name
followed by a newline to the output and returns nil. When Name is empty, the
value of PrintUser makes no difference and Run queries the store. -/
theorem Run_printUser_only_with_name {E : Type} (env : Env E) (cmd : postgresCmd)
    (client : ApiClient) (get : Cmd) :
    (queried (cmd.Run env client get).2 = false ↔ (cmd.Name ≠ "" ∧ cmd.PrintUser = true)) ∧
    ((cmd.Name ≠ "" ∧ cmd.PrintUser = true) →
      cmd.Run env client get =
        (Ret.returned none, [Event.fprintln (env.defaultOut cmd.out) env.PostgresUser]) ∧
      fprintlnText (cmd.Run env client get).2 = env.PostgresUser ++ "\n") ∧
    (cmd.Name = "" →
      queried (cmd.Run env client get).2 = true ∧
      postgresCmd.Run env { cmd with PrintUser := true } client get =
        postgresCmd.Run env { cmd with PrintUser := false } client get) := by
  refine ⟨?_, ?_, ?_⟩
  · constructor
    · intro hq
      by_contra hne
      revert hq
      simp only [postgresCmd.Run, if_neg hne]
      rcases hl : env.list get client cmd.Name with ⟨items, _ | err⟩
      · by_cases h0 : items.length = 0
        · simp [h0, queried]
        · by_cases hp : cmd.Name ≠ "" ∧ cmd.PrintPassword = true
          · rcases hi : items[0]? with _ | first <;> simp [h0, hp, hi, queried]
          · cases hout : get.Output <;> simp [h0, hp, queried]
      · simp [queried]
    · intro h
      simp [postgresCmd.Run, h, queried]
  · intro h
    simp [postgresCmd.Run, h, fprintlnText, Event.written, String.join]
  · intro h
    refine ⟨?_, ?_⟩
    · simp only [postgresCmd.Run, h]
      rcases hl : env.list get client "" with ⟨items, _ | err⟩
      · by_cases h0 : items.length = 0
        · simp [h0, queried]
        · cases hout : get.Output <;> simp [h0, queried]
      · simp [queried]
    · simp [postgresCmd.Run, h]

/-- The early return of C8 on the toy environment: with a name and PrintUser
the user name and a newline are written and nothing is listed; with the empty
name the store is queried and PrintUser changes nothing. -/
theorem Run_printUser_only_with_name_witness :
    (postgresCmd.Run sampleEnv ⟨"db1", false, true, none⟩ ⟨"acme"⟩ ⟨output.full⟩ =
        (Ret.returned none, [Event.fprintln (sampleEnv.defaultOut none) sampleEnv.PostgresUser]) ∧
      fprintlnText (postgresCmd.Run sampleEnv ⟨"db1", false, true, none⟩ ⟨"acme"⟩ ⟨output.full⟩).2 =
        sampleEnv.PostgresUser ++ "\n") ∧
    (queried (postgresCmd.Run sampleEnv ⟨"", false, true, none⟩ ⟨"acme"⟩ ⟨output.full⟩).2 = true ∧
      postgresCmd.Run sampleEnv ⟨"", false, true, none⟩ ⟨"acme"⟩ ⟨output.full⟩ =
        postgresCmd.Run sampleEnv ⟨"", false, false, none⟩ ⟨"acme"⟩ ⟨output.full⟩) :=
  ⟨(Run_printUser_only_with_name sampleEnv ⟨"db1", false, true, none⟩ ⟨"acme"⟩
      ⟨output.full⟩).2.1 ⟨by decide, rfl⟩,
   (Run_printUser_only_with_name sampleEnv ⟨"", false, true, none⟩ ⟨"acme"⟩
      ⟨output.full⟩).2.2 rfl⟩

/-- C10. Run never indexes an empty result. It never ends in an index panic;
whenever the list call was made, succeeded and left zero items, Run prints the
empty message and returns nil, whatever Name, PrintPassword and the output
format are; and printPassword (seen through its call of getConnectionSecret)
is reached only when the list call succeeded with a non-empty list, Name is
non-empty and PrintPassword is true, and it is given the first item. -/
theorem Run_never_indexes_empty {E : Type} (env : Env E) (cmd : postgresCmd)
    (client : ApiClient) (get : Cmd) :
    (cmd.Run env client get).1 ≠ Ret.indexOutOfRange ∧
    (queried (cmd.Run env client get).2 = true →
      (env.list get client cmd.Name).1.length = 0 →
      (env.list get client cmd.Name).2 = none →
      cmd.Run env client get =
        (Ret.returned none,
          [Event.list cmd.Name,
           Event.printEmptyMessage (env.defaultOut cmd.out) env.PostgresKind client.Project])) ∧
    (∀ p ∈ passwordTargets (cmd.Run env client get).2,
      (env.list get client cmd.Name).2 = none ∧
      (env.list get client cmd.Name).1 ≠ [] ∧
      cmd.Name ≠ "" ∧ cmd.PrintPassword = true ∧
      (env.list get client cmd.Name).1.head? = some p) := by
  by_cases hu : cmd.Name ≠ "" ∧ cmd.PrintUser = true
  · simp [postgresCmd.Run, hu, queried, passwordTargets]
  · simp only [postgresCmd.Run, if_neg hu]
    rcases hl : env.list get client cmd.Name with ⟨items, _ | err⟩
    · by_cases h0 : items.length = 0
      · simp [h0, passwordTargets]
      · by_cases hp : cmd.Name ≠ "" ∧ cmd.PrintPassword = true
        · cases items with
          | nil => simp at h0
          | cons first rest =>
            rcases hs : env.getConnectionSecret client env.PostgresUser first with ⟨pw, _ | e⟩ <;>
              simp [hp, postgresCmd.printPassword, hs, passwordTargets]
        · cases hout : get.Output <;>
            simp [h0, hp, postgresCmd.printPostgresInstances,
              passwordTargets, List.filterMap_append, List.filterMap_map]
    · simp [passwordTargets]

/-- The empty-list case of C10 on the toy environment: no instance is called
"nope", so with Name "nope" and PrintPassword the empty message is printed and
nil returned. -/
theorem Run_never_indexes_empty_witness :
    postgresCmd.Run sampleEnv ⟨"nope", true, false, none⟩ ⟨"acme"⟩ ⟨output.yamlOut⟩ =
      (Ret.returned none,
        [Event.list "nope",
         Event.printEmptyMessage (sampleEnv.defaultOut none) sampleEnv.PostgresKind "acme"]) :=
  (Run_never_indexes_empty sampleEnv ⟨"nope", true, false, none⟩ ⟨"acme"⟩
    ⟨output.yamlOut⟩).2.1 (by decide) (by decide) (by decide)

end get

namespace create

/-- A dependent found by `firstFailed` is in the list and classifies Failed. -/
theorem firstFailed_some {kind : DependentKind} {ds : List Dependent} {d : Dependent}
    (h : firstFailed kind ds = some d) : d ∈ ds ∧ classify kind d.status = Class.Failed := by
  unfold firstFailed at h
  have h1 := List.mem_of_find?_eq_some h
  have h2 := List.find?_some h
  exact ⟨h1, by simpa using h2⟩

/-- When no dependent is found by `firstFailed`, none classifies Failed. -/
theorem firstFailed_none {kind : DependentKind} {ds : List Dependent}
    (h : firstFailed kind ds = none) : ∀ d ∈ ds, classify kind d.status ≠ Class.Failed := by
  unfold firstFailed at h
  intro d hd
  have := List.find?_eq_none.mp h d hd
  simpa using this

/-- A tick that lists a dependent which classifies Failed ends in Failed, with
the kind and name of a listed dependent that classifies Failed. -/
theorem tick_fail_fast (o : Observation) (kind : DependentKind) (d : Dependent)
    (hd : d ∈ o.listed kind) (hfail : classify kind d.status = Class.Failed) :
    ∃ (k : DependentKind) (f : Dependent), tick o = Outcome.Failed k f.name ∧
      f ∈ o.listed k ∧ classify k f.status = Class.Failed := by
  rcases o with ⟨parent, builds, releases⟩
  rcases parent with (_ | _) | (_ | _)
  · simp [Observation.listed] at hd
  · simp [Observation.listed] at hd
  · simp [Observation.listed] at hd
  · simp only [tick]
    cases hfb : firstFailed DependentKind.build (returned builds) with
    | some f =>
      exact ⟨DependentKind.build, f, rfl, (firstFailed_some hfb).1, (firstFailed_some hfb).2⟩
    | none =>
      cases hfr : firstFailed DependentKind.release (returned releases) with
      | some f =>
        exact ⟨DependentKind.release, f, rfl, (firstFailed_some hfr).1,
          (firstFailed_some hfr).2⟩
      | none =>
        cases kind with
        | build => exact absurd hfail (firstFailed_none hfb d hd)
        | release => exact absurd hfail (firstFailed_none hfr d hd)

/-- A converged tick ends the wait in Succeeded. -/
theorem tick_converged {o : Observation} (h : o.converged = true) :
    tick o = Outcome.Succeeded := by
  rcases o with ⟨parent, builds, releases⟩
  rcases parent with (_ | _) | (_ | _) <;> try (simp [Observation.converged] at h)
  rcases builds with (_ | _) | bs <;> try (simp [Observation.converged] at h)
  rcases releases with (_ | _) | rs <;> try (simp [Observation.converged] at h)
  obtain ⟨⟨⟨hb1, hb2⟩, hr1⟩, hr2⟩ := h
  have cb : ∀ d ∈ bs, d.status = "" ∨ classify DependentKind.build d.status = Class.Succeeded := by
    intro d hd
    rcases hb2 d hd with h0 | h1
    · exact Or.inl h0
    · right; rw [h1]; decide
  have cr : ∀ d ∈ rs, d.status = "" ∨
      classify DependentKind.release d.status = Class.Succeeded := by
    intro d hd
    rcases hr2 d hd with h0 | h1
    · exact Or.inl h0
    · right; rw [h1]; decide
  have fb : firstFailed DependentKind.build bs = none := by
    unfold firstFailed
    rw [List.find?_eq_none]
    intro d hd
    rcases cb d hd with h0 | h1
    · rw [h0]; decide
    · simp [h1]
  have fr : firstFailed DependentKind.release rs = none := by
    unfold firstFailed
    rw [List.find?_eq_none]
    intro d hd
    rcases cr d hd with h0 | h1
    · rw [h0]; decide
    · simp [h1]
  have kb : kindConverged DependentKind.build bs = true := by
    simp only [kindConverged, Bool.and_eq_true, List.any_eq_true, List.all_eq_true,
      Bool.or_eq_true, decide_eq_true_eq]
    obtain ⟨d, hd, hs⟩ := hb1
    exact ⟨⟨d, hd, by rw [hs]; decide⟩, cb⟩
  have kr : kindConverged DependentKind.release rs = true := by
    simp only [kindConverged, Bool.and_eq_true, List.any_eq_true, List.all_eq_true,
      Bool.or_eq_true, decide_eq_true_eq]
    obtain ⟨d, hd, hs⟩ := hr1
    exact ⟨⟨d, hd, by rw [hs]; decide⟩, cr⟩
  simp [tick, vanished, returned, fb, fr, kb, kr]

/-- A quiet tick either stays Polling or ends in Succeeded. -/
theorem tick_quiet {o : Observation} (h : o.quiet = true) :
    tick o = Outcome.Polling ∨ tick o = Outcome.Succeeded := by
  rcases o with ⟨parent, builds, releases⟩
  rcases parent with (_ | _) | (_ | _)
  · simp [Observation.quiet] at h
  · left; rfl
  · left; rfl
  · have hb : ¬ vanished builds = true := by
      intro e
      rcases builds with (_ | _) | bs <;> simp [vanished] at e
      simp [Observation.quiet] at h
    have hr : ¬ vanished releases = true := by
      intro e
      rcases releases with (_ | _) | rs <;> simp [vanished] at e
      rcases builds with (_ | _) | bs <;> simp [Observation.quiet] at h
    have fb : firstFailed DependentKind.build (returned builds) = none := by
      cases hf : firstFailed DependentKind.build (returned builds) with
      | none => rfl
      | some d =>
        exfalso
        obtain ⟨hm, hc⟩ := firstFailed_some hf
        rcases builds with (_ | _) | bs
        · exact hb rfl
        · simp [returned] at hm
        · simp only [Observation.quiet, Bool.and_eq_true, List.all_eq_true,
            decide_eq_true_eq] at h
          exact h.1.2 d hm hc
    have fr : firstFailed DependentKind.release (returned releases) = none := by
      cases hf : firstFailed DependentKind.release (returned releases) with
      | none => rfl
      | some d =>
        exfalso
        obtain ⟨hm, hc⟩ := firstFailed_some hf
        rcases releases with (_ | _) | rs
        · exact hr rfl
        · simp [returned] at hm
        · simp only [Observation.quiet, Bool.and_eq_true, List.all_eq_true,
            decide_eq_true_eq] at h
          exact h.2 d hm hc
    simp only [tick, fb, fr]
    by_cases hc : kindConverged DependentKind.build (returned builds) = true ∧
        kindConverged DependentKind.release (returned releases) = true
    · right; simp [hb, hr, hc]
    · left; simp [hb, hr, hc]

/-- The loop started at tick `t`: quiet ticks up to a converged tick `k` that
lies before the deadline end the wait in Succeeded. -/
theorem waitFrom_succeeds (parent : String) (obs : Nat → Observation) :
    ∀ (remaining t k : Nat), t ≤ k → k < t + remaining → (obs k).converged = true →
      (∀ u, t ≤ u → u < k → (obs u).quiet = true) →
      waitFrom parent obs t remaining = Outcome.Succeeded := by
  intro remaining
  induction remaining with
  | zero => intro t k h1 h2; omega
  | succ n ih =>
    intro t k h1 h2 hc hq
    by_cases hkt : k = t
    · subst hkt
      simp [waitFrom, tick_converged hc]
    · rcases tick_quiet (hq t (le_refl t) (by omega)) with hp | hs
      · simp only [waitFrom, hp]
        exact ih (t + 1) k (by omega) (by omega) hc (fun u hu1 hu2 => hq u (by omega) hu2)
      · simp [waitFrom, hs]

/-- The loop skips ticks that stay Polling. -/
theorem waitFrom_polling (parent : String) (obs : Nat → Observation) :
    ∀ (j t remaining : Nat), (∀ u, t ≤ u → u < t + j → tick (obs u) = Outcome.Polling) →
      waitFrom parent obs t (remaining + j) = waitFrom parent obs (t + j) remaining := by
  intro j
  induction j with
  | zero => intro t remaining _; rfl
  | succ n ih =>
    intro t remaining h
    have h0 := h t (le_refl t) (by omega)
    have : remaining + (n + 1) = (remaining + n) + 1 := by omega
    rw [this]
    simp only [waitFrom, h0]
    rw [ih (t + 1) remaining (fun u hu1 hu2 => h u (by omega) (by omega))]
    congr 1
    omega

/-- C6. Classification is a total function of the status value. For builds,
running is Pending, success is Succeeded and failed is Failed; for releases,
pending is Pending, available is Succeeded and failed is Failed; every other
value is Pending, so that Failed is the class of the value failed alone and
the unset (empty) value is Pending for both kinds. -/
theorem classify_table :
    classify DependentKind.build buildStatusRunning = Class.Pending ∧
    classify DependentKind.build buildStatusSuccess = Class.Succeeded ∧
    classify DependentKind.build buildStatusFailed = Class.Failed ∧
    classify DependentKind.release releaseStatusPending = Class.Pending ∧
    classify DependentKind.release releaseStatusAvailable = Class.Succeeded ∧
    classify DependentKind.release releaseStatusFailed = Class.Failed ∧
    (∀ status, classify DependentKind.build status = Class.Pending ↔
      (status ≠ buildStatusSuccess ∧ status ≠ buildStatusFailed)) ∧
    (∀ status, classify DependentKind.release status = Class.Pending ↔
      (status ≠ releaseStatusAvailable ∧ status ≠ releaseStatusFailed)) ∧
    (∀ kind, classify kind "" = Class.Pending) := by
  refine ⟨by decide, by decide, by decide, by decide, by decide, by decide, ?_, ?_, ?_⟩
  · intro status
    simp only [classify, buildStatusRunning, buildStatusSuccess, buildStatusFailed]
    by_cases h1 : status = "running"
    · subst h1; simp
    · by_cases h2 : status = "success"
      · subst h2; simp
      · by_cases h3 : status = "failed"
        · subst h3; simp
        · simp [h1, h2, h3]
  · intro status
    simp only [classify, releaseStatusPending, releaseStatusAvailable, releaseStatusFailed]
    by_cases h1 : status = "pending"
    · subst h1; simp
    · by_cases h2 : status = "available"
      · subst h2; simp
      · by_cases h3 : status = "failed"
        · subst h3; simp
        · simp [h1, h2, h3]
  · intro kind
    cases kind <;> decide

/-- C3. Fail-fast: in every poll tick that is reached (all earlier ticks stayed
Polling, the deadline has not passed) and that lists a dependent of a required
kind which classifies Failed, the tick ends in Failed and so does the wait,
whatever the remaining deadline, whatever the class of the other dependents
and whatever the other list read returns; the error names the kind and the
name of a listed dependent of that kind that classifies Failed. -/
theorem wait_fail_fast (parent : String) (obs : Nat → Observation) (deadline t : Nat)
    (kind : DependentKind) (d : Dependent)
    (ht : t < deadline)
    (hpoll : ∀ u, u < t → tick (obs u) = Outcome.Polling)
    (hd : d ∈ (obs t).listed kind)
    (hfail : classify kind d.status = Class.Failed) :
    ∃ (k : DependentKind) (f : Dependent), tick (obs t) = Outcome.Failed k f.name ∧
      wait parent obs deadline = Outcome.Failed k f.name ∧
      outcomeError (wait parent obs deadline) = some (RunError.dependentFailed k f.name) ∧
      f ∈ (obs t).listed k ∧
      classify k f.status = Class.Failed := by
  obtain ⟨k, f, hk, hmem, hcl⟩ := tick_fail_fast (obs t) kind d hd hfail
  have hw : wait parent obs deadline = Outcome.Failed k f.name := by
    obtain ⟨r, rfl⟩ : ∃ r, deadline = (r + 1) + t := ⟨deadline - t - 1, by omega⟩
    unfold wait
    rw [waitFrom_polling parent obs t 0 (r + 1) (fun u _ hu => hpoll u (by omega))]
    simp [waitFrom, hk]
  exact ⟨k, f, hk, hw, by rw [hw]; rfl, hmem, hcl⟩

/-- The fail-fast case of C3 on a trace: after two ticks without news the third
tick lists build any-name-1 with status failed next to a running build while
the list of releases cannot be read, and the wait with a deadline of 50 ticks
ends there in Failed. -/
theorem wait_fail_fast_witness :
    ∃ (k : DependentKind) (f : Dependent), tick (failingTrace 2) = Outcome.Failed k f.name ∧
      wait "some-name" failingTrace 50 = Outcome.Failed k f.name ∧
      outcomeError (wait "some-name" failingTrace 50) =
        some (RunError.dependentFailed k f.name) ∧
      f ∈ (failingTrace 2).listed k ∧
      classify k f.status = Class.Failed :=
  wait_fail_fast "some-name" failingTrace 50 2 DependentKind.build
    (Dependent.mk "any-name-1" "failed") (by decide)
    (by intro u hu; interval_cases u <;> rfl) (by decide) (by decide)

/-- C2. Wait success: for a command with wait set, when at some poll tick
before the deadline (the timeout divided by the polling interval) the parent
signals success, a labelled build has status success and a labelled release
has status available, every further labelled build and release has the success
status of its kind or no status at all (also when there are two of each), and
until then the parent is stored and no dependent classifies Failed, Run
returns no error. -/
theorem Run_wait_succeeds (cmd : applicationCmd) (ready : Object → Bool) (interval : Nat)
    (sched : Nat → Nat) (ns : String) (view : Nat → Store) (k : Nat)
    (hwait : cmd.Wait = true)
    (hk : k < cmd.WaitTimeout / interval)
    (hconv : (observe ready (view (sched k)) ns cmd.Name).converged = true)
    (hquiet : ∀ u, u < k → (observe ready (view (sched u)) ns cmd.Name).quiet = true) :
    cmd.Run ready interval sched ns view = none := by
  have h := waitFrom_succeeds cmd.Name (fun t => observe ready (view (sched t)) ns cmd.Name)
    (cmd.WaitTimeout / interval) 0 k (Nat.zero_le k) (by omega) hconv
    (fun u _ hu => hquiet u hu)
  simp [applicationCmd.Run, hwait, wait, h, outcomeError]

/-- The success scenario of C2 on the store of `TestApplicationWait` itself
(wait set, timeout 5 s, polling every 100 ms): after the first firing of the
ticker the parent is reconciled, build any-name has status success, release
another-name has status available, any-name-1 and another-name-1 have no
status, and Run returns nil. -/
theorem Run_wait_succeeds_witness :
    testCmd.Run reconciled 100 afterFirings testNamespace testView = none :=
  Run_wait_succeeds testCmd reconciled 100 afterFirings testNamespace testView 1
    (by decide) (by decide) (by decide) (by decide)

/-- The modelled `Run` passes `TestApplicationWait`: it returns nil, and the
goroutine, stopped after its first firing, has sent no error. -/
theorem TestApplicationWait_passes : TestApplicationWait 100 afterFirings 10 = true := by
  decide

/-- A stored object found under a key carries the key's name. -/
theorem hasKey_name {o : Object} {kind : Kind} {key : NamespacedName}
    (h : o.hasKey kind key = true) : o.Name = key.Name := by
  simp only [Object.hasKey, Bool.and_eq_true, decide_eq_true_eq] at h
  exact h.2

/-- A point read hands back the object it was given or a stored object. -/
theorem Get_secondUnset (s : Store) (key : NamespacedName) (obj : Object)
    (hs : ∀ o ∈ s, o.secondUnset) (ho : obj.secondUnset) : (Get s key obj).1.secondUnset := by
  unfold Get
  cases hf : s.find? (fun o => o.hasKey obj.kind key) with
  | none => exact ho
  | some o => exact hs o (List.mem_of_find?_eq_some hf)

/-- A point read under the key of an object hands back an object of its name. -/
theorem Get_name (s : Store) (obj : Object) : (Get s (ObjectName obj) obj).1.Name = obj.Name := by
  unfold Get
  cases hf : s.find? (fun o => o.hasKey obj.kind (ObjectName obj)) with
  | none => rfl
  | some o =>
    have hk : o.hasKey obj.kind (ObjectName obj) = true := by
      simpa using List.find?_some hf
    exact hasKey_name hk

/-- A status write keeps the invariant of the stored objects and hands back an
object with the name and the status values it was given. -/
theorem StatusUpdate_secondUnset (s : Store) (obj : Object)
    (hs : ∀ o ∈ s, o.secondUnset) (ho : obj.secondUnset) :
    (∀ o ∈ (StatusUpdate s obj).1, o.secondUnset) ∧ (StatusUpdate s obj).2.1.secondUnset ∧
      (StatusUpdate s obj).2.1.Name = obj.Name := by
  unfold StatusUpdate
  cases hf : s.find? (fun o => o.hasKey obj.kind (ObjectName obj)) with
  | none => exact ⟨hs, ho, rfl⟩
  | some old =>
    dsimp only
    by_cases hv : obj.ResourceVersion = old.ResourceVersion
    · rw [if_pos hv]
      refine ⟨?_, ho, rfl⟩
      intro o hmem
      rw [List.mem_map] at hmem
      obtain ⟨x, hx, rfl⟩ := hmem
      by_cases hk : x.hasKey obj.kind (ObjectName obj) = true
      · rw [if_pos hk]; exact ho
      · rw [if_neg hk]; exact hs x hx
    · rw [if_neg hv]
      exact ⟨hs, ho, rfl⟩

/-- Setting a condition changes neither the name nor the status values. -/
theorem SetConditions_secondUnset (obj : Object) (c : Condition) (ho : obj.secondUnset) :
    (SetConditions obj c).secondUnset ∧ (SetConditions obj c).Name = obj.Name := by
  unfold SetConditions
  split <;> exact ⟨ho, rfl⟩

/-- The helper `setResourceCondition` keeps the invariant of the stored objects
and hands back an object of the same name. -/
theorem setResourceCondition_secondUnset (s : Store) (mg : Object) (c : Condition)
    (hs : ∀ o ∈ s, o.secondUnset) (ho : mg.secondUnset) :
    (∀ o ∈ (setResourceCondition s mg c).1, o.secondUnset) ∧
      (setResourceCondition s mg c).2.1.secondUnset ∧
      (setResourceCondition s mg c).2.1.Name = mg.Name := by
  have hg := Get_secondUnset s (ObjectName mg) mg hs ho
  have hn := Get_name s mg
  unfold setResourceCondition
  rcases hget : Get s (ObjectName mg) mg with ⟨mg1, _ | err⟩
  · rw [hget] at hg hn
    have hc := SetConditions_secondUnset mg1 c hg
    have hu := StatusUpdate_secondUnset s (SetConditions mg1 c) hs hc.1
    exact ⟨hu.1, hu.2.1, by rw [hu.2.2, hc.2]; exact hn⟩
  · rw [hget] at hg hn
    exact ⟨hs, hg, hn⟩

/-- An object named any-name or another-name satisfies the invariant whatever
its status values are. -/
theorem secondUnset_of_name {o : Object} (h : o.Name = "any-name" ∨ o.Name = "another-name") :
    o.secondUnset := by
  constructor
  · intro hn
    rcases h with h | h <;> rw [h] at hn <;> exact absurd hn (by decide)
  · intro hn
    rcases h with h | h <;> rw [h] at hn <;> exact absurd hn (by decide)

/-- Every client call of the goroutine keeps its invariant. -/
theorem actorOp_inv (i : Nat) (a : ActorState) (h : a.inv) : (actorOp i a).inv := by
  obtain ⟨hs, happ, hb2, hr2, hb, hr, hbn, hrn⟩ := h
  by_cases hi : i < 10
  · interval_cases i
    · exact ⟨hs, Get_secondUnset _ _ _ hs ⟨fun _ => rfl, fun _ => rfl⟩, hb2, hr2, hb, hr,
        hbn, hrn⟩
    · have hu := setResourceCondition_secondUnset a.store a.app ReconcileSuccess hs happ
      exact ⟨hu.1, hu.2.1, hb2, hr2, hb, hr, hbn, hrn⟩
    · have hu := StatusUpdate_secondUnset a.store
        { a.app with Hosts := ["host.example.org"], CNAMETarget := "some.target.example.org" }
        hs happ
      exact ⟨hu.1, hu.2.1, hb2, hr2, hb, hr, hbn, hrn⟩
    · have hu := setResourceCondition_secondUnset a.store a.build Available hs hb
      exact ⟨hu.1, happ, hb2, hr2, hu.2.1, hr, by rw [← hbn]; exact hu.2.2, hrn⟩
    · have hu := setResourceCondition_secondUnset a.store a.build2 Available hs hb2
      exact ⟨hu.1, happ, hu.2.1, hr2, hb, hr, hbn, hrn⟩
    · exact ⟨hs, happ, hb2, hr2, Get_secondUnset _ _ _ hs hb, hr,
        by rw [← hbn]; exact Get_name a.store a.build, hrn⟩
    · have hu := StatusUpdate_secondUnset a.store
        { a.build with BuildStatus := buildStatusRunning } hs
        (secondUnset_of_name (Or.inl hbn))
      exact ⟨hu.1, happ, hb2, hr2, hu.2.1, hr, by rw [← hbn]; exact hu.2.2, hrn⟩
    · have hu := StatusUpdate_secondUnset a.store
        { a.build with BuildStatus := buildStatusSuccess } hs
        (secondUnset_of_name (Or.inl hbn))
      exact ⟨hu.1, happ, hb2, hr2, hu.2.1, hr, by rw [← hbn]; exact hu.2.2, hrn⟩
    · have hu := setResourceCondition_secondUnset a.store a.release2 Available hs hr2
      exact ⟨hu.1, happ, hb2, hu.2.1, hb, hr, hbn, hrn⟩
    · have hu := StatusUpdate_secondUnset a.store
        { a.release with ReleaseStatus := releaseStatusAvailable } hs
        (secondUnset_of_name (Or.inr hrn))
      exact ⟨hu.1, happ, hb2, hr2, hb, hu.2.1, hbn, by rw [← hrn]; exact hu.2.2⟩
  · have e : actorOp i a = a := by
      obtain ⟨j, rfl⟩ : ∃ j, i = j + 10 := ⟨i - 10, by omega⟩
      rfl
    rw [e]
    exact ⟨hs, happ, hb2, hr2, hb, hr, hbn, hrn⟩

/-- The invariant holds at every moment of the test. -/
theorem actorAfter_inv (k : Nat) : (actorAfter k).inv := by
  induction k with
  | zero =>
    refine ⟨?_, ⟨fun _ => rfl, fun _ => rfl⟩, ⟨fun _ => rfl, fun _ => rfl⟩,
      ⟨fun _ => rfl, fun _ => rfl⟩, ⟨fun _ => rfl, fun _ => rfl⟩,
      ⟨fun _ => rfl, fun _ => rfl⟩, rfl, rfl⟩
    intro o ho
    simp only [actorAfter, actorInit, List.mem_cons, List.mem_singleton, List.not_mem_nil,
      or_false] at ho
    rcases ho with rfl | rfl | rfl | rfl | rfl <;> exact ⟨fun _ => rfl, fun _ => rfl⟩
  | succ n ih => exact actorOp_inv (n % 10) (actorAfter n) ih

/-- At every moment of the test, no stored object named any-name-1 has a build
status and none named another-name-1 has a release status. -/
theorem second_never_set (t : Nat) : ∀ o ∈ testView t, o.secondUnset :=
  (actorAfter_inv t).1

/-- A loop that ends in Succeeded has a tick before the deadline that ends in
Succeeded. -/
theorem waitFrom_eq_succeeded (parent : String) (obs : Nat → Observation) :
    ∀ (n t : Nat), waitFrom parent obs t n = Outcome.Succeeded →
      ∃ u, t ≤ u ∧ u < t + n ∧ tick (obs u) = Outcome.Succeeded := by
  intro n
  induction n with
  | zero => intro t h; simp [waitFrom] at h
  | succ m ih =>
    intro t h
    cases ht : tick (obs t) with
    | Polling =>
      simp only [waitFrom, ht] at h
      obtain ⟨u, h1, h2, h3⟩ := ih (t + 1) h
      exact ⟨u, by omega, by omega, h3⟩
    | Succeeded => exact ⟨t, le_refl t, by omega, ht⟩
    | Failed k name => simp [waitFrom, ht] at h
    | TimedOut p e => simp [waitFrom, ht] at h
    | NotFound => simp [waitFrom, ht] at h

/-- A tick that ends in Succeeded has found both kinds converged. -/
theorem tick_eq_succeeded {o : Observation} (h : tick o = Outcome.Succeeded) :
    kindConverged DependentKind.build (returned o.builds) = true ∧
      kindConverged DependentKind.release (returned o.releases) = true := by
  rcases o with ⟨parent, builds, releases⟩
  rcases parent with (_ | _) | (_ | _)
  · simp [tick] at h
  · simp [tick] at h
  · simp [tick] at h
  · simp only [tick] at h
    cases hfb : firstFailed DependentKind.build (returned builds) with
    | some d => simp [hfb] at h
    | none =>
      cases hfr : firstFailed DependentKind.release (returned releases) with
      | some d => simp [hfb, hfr] at h
      | none =>
        simp only [hfb, hfr] at h
        by_cases hv : vanished builds = true ∨ vanished releases = true
        · simp [if_pos hv] at h
        · rw [if_neg hv] at h
          by_cases hc : kindConverged DependentKind.build (returned builds) = true ∧
              kindConverged DependentKind.release (returned releases) = true
          · exact hc
          · simp [if_neg hc] at h

/-- Only the success status of its kind classifies Succeeded. -/
theorem classify_eq_succeeded (kind : DependentKind) (status : String)
    (h : classify kind status = Class.Succeeded) : status = successStatus kind := by
  cases kind
  · simp only [classify, buildStatusRunning, buildStatusSuccess, buildStatusFailed] at h
    simp only [successStatus, buildStatusSuccess]
    by_cases h1 : status = "running"
    · simp [h1] at h
    · by_cases h2 : status = "success"
      · exact h2
      · by_cases h3 : status = "failed" <;> simp [h1, h2, h3] at h
  · simp only [classify, releaseStatusPending, releaseStatusAvailable, releaseStatusFailed] at h
    simp only [successStatus, releaseStatusAvailable]
    by_cases h1 : status = "pending"
    · simp [h1] at h
    · by_cases h2 : status = "available"
      · exact h2
      · by_cases h3 : status = "failed" <;> simp [h1, h2, h3] at h

/-- A converged kind, read from a store: one labelled dependent has the
success status of the kind and every labelled dependent has that status or
none. -/
theorem kindConverged_listDependents (s : Store) (kind : DependentKind) (ns parent : String)
    (h : kindConverged kind (listDependents s kind ns parent) = true) :
    (∃ o ∈ dependents s kind.toKind ns parent, o.status = successStatus kind) ∧
    (∀ o ∈ dependents s kind.toKind ns parent,
      o.status = "" ∨ o.status = successStatus kind) := by
  simp only [kindConverged, listDependents, Bool.and_eq_true, List.any_eq_true,
    List.all_eq_true, Bool.or_eq_true, decide_eq_true_eq, List.mem_map] at h
  obtain ⟨⟨d, ⟨o, ho, rfl⟩, hd⟩, hall⟩ := h
  refine ⟨⟨o, ho, classify_eq_succeeded kind _ hd⟩, ?_⟩
  intro x hx
  rcases hall ⟨x.Name, x.status⟩ ⟨x, hx, rfl⟩ with h0 | h1
  · exact Or.inl h0
  · exact Or.inr (classify_eq_succeeded kind _ h1)

/-- C1, as stated, does not hold: on the store of `TestApplicationWait` the
wait ends in success (Run returns nil), although the parent has the two
labelled builds any-name and any-name-1 (and the two labelled releases
another-name and another-name-1), any-name has status success at the tick that
reports success, and at no moment of the test does any-name-1 have a build
status or another-name-1 a release status. -/
theorem multiplicity_fails_on_TestApplicationWait :
    testCmd.Run reconciled 100 afterFirings testNamespace testView = none ∧
    (dependents (testView 10) Kind.Build testNamespace testCmd.Name).map
      (fun o => (o.Name, o.status)) = [("any-name", "success"), ("any-name-1", "")] ∧
    (dependents (testView 10) Kind.Release testNamespace testCmd.Name).map
      (fun o => (o.Name, o.status)) = [("another-name", "available"), ("another-name-1", "")] ∧
    (∀ t, ∀ o ∈ dependents (testView t) Kind.Build testNamespace testCmd.Name,
      o.Name = "any-name-1" → o.status = "") ∧
    (∀ t, ∀ o ∈ dependents (testView t) Kind.Release testNamespace testCmd.Name,
      o.Name = "another-name-1" → o.status = "") := by
  refine ⟨by decide, by decide, by decide, ?_, ?_⟩
  · intro t o ho hn
    simp only [dependents, List.mem_filter, Bool.and_eq_true, decide_eq_true_eq] at ho
    have hk : o.kind = Kind.Build := ho.2.1.1
    simp only [Object.status, hk]
    exact (second_never_set t o ho.1).1 hn
  · intro t o ho hn
    simp only [dependents, List.mem_filter, Bool.and_eq_true, decide_eq_true_eq] at ho
    have hk : o.kind = Kind.Release := ho.2.1.1
    simp only [Object.status, hk]
    exact (second_never_set t o ho.1).2 hn

/-- C1, amended. When Run, with wait set, returns no error, there is a poll
tick before the deadline at which, for builds and for releases alike, at least
one dependent carrying the parent's label has the terminal success status of
its kind, and every dependent carrying the label has that status or no status
at all: success is reported only if every labelled dependent whose status is
set has succeeded, and a dependent whose status is never set is not waited
for. -/
theorem Run_success_only_if (cmd : applicationCmd) (ready : Object → Bool) (interval : Nat)
    (sched : Nat → Nat) (ns : String) (view : Nat → Store)
    (hwait : cmd.Wait = true)
    (hrun : cmd.Run ready interval sched ns view = none) :
    ∃ u, u < cmd.WaitTimeout / interval ∧ ∀ (kind : DependentKind),
      (∃ o ∈ dependents (view (sched u)) kind.toKind ns cmd.Name,
        o.status = successStatus kind) ∧
      (∀ o ∈ dependents (view (sched u)) kind.toKind ns cmd.Name,
        o.status = "" ∨ o.status = successStatus kind) := by
  simp only [applicationCmd.Run, hwait, if_true] at hrun
  have hs : wait cmd.Name (fun t => observe ready (view (sched t)) ns cmd.Name)
      (cmd.WaitTimeout / interval) = Outcome.Succeeded := by
    cases hwt : wait cmd.Name (fun t => observe ready (view (sched t)) ns cmd.Name)
      (cmd.WaitTimeout / interval) <;> simp [hwt, outcomeError] at hrun
    rfl
  obtain ⟨u, _, hu, htick⟩ := waitFrom_eq_succeeded _ _ _ _ hs
  obtain ⟨hb, hr⟩ := tick_eq_succeeded htick
  refine ⟨u, by omega, ?_⟩
  intro kind
  cases kind
  · exact kindConverged_listDependents _ DependentKind.build ns cmd.Name hb
  · exact kindConverged_listDependents _ DependentKind.release ns cmd.Name hr

/-- The amended C1 on the store of `TestApplicationWait`: Run returns nil there,
so at some poll tick before the deadline a labelled build has status success
and a labelled release has status available, and the other labelled dependents
have the success status or none. -/
theorem Run_success_only_if_witness :
    ∃ u, u < testCmd.WaitTimeout / 100 ∧ ∀ (kind : DependentKind),
      (∃ o ∈ dependents (testView (afterFirings u)) kind.toKind testNamespace testCmd.Name,
        o.status = successStatus kind) ∧
      (∀ o ∈ dependents (testView (afterFirings u)) kind.toKind testNamespace testCmd.Name,
        o.status = "" ∨ o.status = successStatus kind) :=
  Run_success_only_if testCmd reconciled 100 afterFirings testNamespace testView
    (by decide) (by decide)

end create
